import Mathlib

/-!
Verification development for the code-analysis core of the repository
(`app/services/code_analysis_service.py`).

The Python source is shallowly embedded: the AST produced by `ast.parse` is
modelled by the inductive types `PyConst`, `Expr` and `Stmt` below, and each
method of `PythonCodeAnalyzer` / `CodeAnalysisService` is translated into a
Lean function over that embedding.  `ast.parse` itself is treated as an
oracle: `analyze` receives the parse result (`Except SynErr (List Stmt)`)
instead of the raw text, and repository files carry their read result and
parse result explicitly.  Machine integers are modelled as `Int`/`Nat`
(Python integers are unbounded, so no wrap-around is needed).

CPython prints an AST node object (`str(node)`) as
`<ast.TypeName object at 0xADDR>`; the runtime address is not a function of
the program text, so it is threaded through the embedding as an explicit
`addr : String` parameter that only the `str(node)` fallback consumes.
-/

namespace CodeAnalysis

/-! ### The embedded Python AST -/

/-- A literal constant as stored in `ast.Constant.value`.  Only the constant
kinds exercised by the analyzer are modelled; `type(value).__name__` for each
is given by `pyConstTypeName`. -/
inductive PyConst where
  | intC (n : Int)
  | strC (s : String)
  | boolC (b : Bool)
  | noneC
deriving DecidableEq

/-- Python expression nodes (the subset the analyzer inspects).  `binopE`
models `ast.BinOp` with the `Add` operator, which is enough for every
expression the theorems below evaluate.  An `ast.Dict` stores parallel
`keys` and `values` lists; they are modelled as one list of pairs. -/
inductive Expr where
  | constE (c : PyConst)
  | nameE (id : String)
  | attrE (value : Expr) (attr : String)
  | callE (func : Expr) (args : List Expr)
  | listE (elts : List Expr)
  | dictE (pairs : List (Expr × Expr))
  | setE (elts : List Expr)
  | tupleE (elts : List Expr)
  | binopE (left : Expr) (right : Expr)

/-- The AST class name of a node, as it appears in `str(node)`. -/
def Expr.typeName : Expr → String
  | .constE _ => "Constant"
  | .nameE _ => "Name"
  | .attrE _ _ => "Attribute"
  | .callE _ _ => "Call"
  | .listE _ => "List"
  | .dictE _ => "Dict"
  | .setE _ => "Set"
  | .tupleE _ => "Tuple"
  | .binopE _ _ => "BinOp"

/-- Models the default CPython textual form `str(node)` of an AST node
object: `<ast.TypeName object at 0xADDR>`.  The runtime address is the
explicit parameter `addr`. -/
def pyObjectStr (addr : String) (e : Expr) : String :=
  "<ast." ++ e.typeName ++ " object at " ++ addr ++ ">"

mutual
/-- Models `ast.unparse` on the expression subset above, producing the raw
source form (string-literal escaping is not exercised by any theorem and is
rendered with plain quotes). -/
def unparse : Expr → String
  | .constE (.intC n) => toString n
  | .constE (.strC s) => "\x27" ++ s ++ "\x27"
  | .constE (.boolC b) => if b then "True" else "False"
  | .constE .noneC => "None"
  | .nameE id => id
  | .attrE v a => unparse v ++ "." ++ a
  | .callE f args => unparse f ++ "(" ++ unparseList args ++ ")"
  | .listE es => "[" ++ unparseList es ++ "]"
  | .dictE ps => "\x7b" ++ unparsePairs ps ++ "\x7d"
  | .setE es => "\x7b" ++ unparseList es ++ "\x7d"
  | .tupleE es => "(" ++ unparseList es ++ ")"
  | .binopE l r => unparse l ++ " + " ++ unparse r

/-- Comma-separated rendering of an expression list. -/
def unparseList : List Expr → String
  | [] => ""
  | [e] => unparse e
  | e :: es => unparse e ++ ", " ++ unparseList es

/-- Comma-separated rendering of dictionary key-value pairs. -/
def unparsePairs : List (Expr × Expr) → String
  | [] => ""
  | [(k, v)] => unparse k ++ ": " ++ unparse v
  | (k, v) :: ps => unparse k ++ ": " ++ unparse v ++ ", " ++ unparsePairs ps
end

/-- A formal parameter as stored in `ast.arguments.args`: the parameter name
(`arg.arg`) and its optional annotation expression. -/
structure Param where
  name : String
  ann : Option Expr

/-- An `ast.alias` entry of an import statement: the imported name and the
optional `as` binding. -/
structure ImportAlias where
  name : String
  asname : Option String

/-- Python statement nodes (the subset the analyzer dispatches on).
Function definitions carry `node.args.args` (`args`), `node.args.defaults`
(`defaults`), the body, the decorator list, the optional return annotation
and the line span; `isAsync` distinguishes `ast.AsyncFunctionDef` from
`ast.FunctionDef`.  Statement kinds with no dedicated visitor and no
statement children (expression statements, `return`, `pass`) are modelled
explicitly so that function and class bodies are representable. -/
inductive Stmt where
  | functionDef (isAsync : Bool) (name : String) (args : List Param)
      (defaults : List Expr) (body : List Stmt) (decorators : List Expr)
      (returns : Option Expr) (lineno : Nat) (endLineno : Option Nat)
  | classDef (name : String) (bases : List Expr) (body : List Stmt)
      (decorators : List Expr) (lineno : Nat) (endLineno : Option Nat)
  | assign (targets : List Expr) (value : Expr) (lineno : Nat)
  | importS (names : List ImportAlias) (lineno : Nat)
  | importFrom (module : Option String) (names : List ImportAlias) (lineno : Nat)
  | exprStmt (value : Expr)
  | returnS (value : Option Expr)
  | passS

/-- A parse failure, as caught from `ast.parse`: the best-effort line number
`e.lineno` and the message `e.msg`. -/
structure SynErr where
  lineno : Nat
  msg : String

/-! ### The data model of the analyzer -/

/-- Translation of the `FunctionInfo` dataclass. -/
structure FunctionInfo where
  name : String
  lineno : Nat
  end_lineno : Option Nat
  args : List String
  defaults : List String
  return_type : Option String
  docstring : Option String
  decorators : List String
  is_async : Bool
deriving DecidableEq

/-- Translation of the `ClassInfo` dataclass. -/
structure ClassInfo where
  name : String
  lineno : Nat
  end_lineno : Option Nat
  bases : List String
  methods : List FunctionInfo
  attributes : List String
  docstring : Option String
  decorators : List String
deriving DecidableEq

/-- Translation of the `ImportInfo` dataclass. -/
structure ImportInfo where
  module : String
  names : List String
  asname : Option String
  lineno : Nat
  is_from : Bool
deriving DecidableEq

/-- An entry of the `variables` list of the source: the dict with keys
"name", "lineno" and "value_type" appended by `visit_Assign`. -/
structure PyVariable where
  name : String
  lineno : Nat
  value_type : String
deriving DecidableEq

/-- Translation of the `CodeStructure` dataclass.  The source field
`variables` is named `vars` here because `variables` is a reserved command
token in Lean. -/
structure CodeStructure where
  classes : List ClassInfo
  functions : List FunctionInfo
  vars : List PyVariable
  imports : List ImportInfo
  errors : List String
deriving DecidableEq

/-! ### Helper methods of `PythonCodeAnalyzer` -/

/-- The attribute chain collected by the loop of `_get_attr_name`: the
`attr` parts from the outermost attribute inwards, and finally the base
identifier when the chain is rooted at a bare name (just as the source
appends `current.id` only when `current` ends up being an `ast.Name`). -/
def attrParts : Expr → List String
  | .attrE v a => a :: attrParts v
  | .nameE id => [id]
  | _ => []

/-- Models `".".join(parts)` of the Python source. -/
def joinDot : List String → String
  | [] => ""
  | [x] => x
  | x :: xs => x ++ "." ++ joinDot xs

/-- Translation of `_get_attr_name`: join the reversed collected parts with
dots. -/
def get_attr_name (e : Expr) : String :=
  joinDot (attrParts e).reverse

/-- Translation of `_get_decorator_name`.  A bare name yields its id; an
attribute yields `_get_attr_name`; a call whose callee is a bare name or an
attribute yields the callee name; every other node falls through to
`str(node)` (modelled by `pyObjectStr addr`). -/
def get_decorator_name (addr : String) : Expr → String
  | .nameE id => id
  | .attrE v a => get_attr_name (.attrE v a)
  | .callE (.nameE id) _ => id
  | .callE (.attrE v a) _ => get_attr_name (.attrE v a)
  | e => pyObjectStr addr e

/-- The runtime type name `type(node.value).__name__` of a constant. -/
def pyConstTypeName : PyConst → String
  | .intC _ => "int"
  | .strC _ => "str"
  | .boolC _ => "bool"
  | .noneC => "NoneType"

/-- Translation of `_get_value_type`. -/
def get_value_type : Expr → String
  | .constE c => pyConstTypeName c
  | .listE _ => "list"
  | .dictE _ => "dict"
  | .setE _ => "set"
  | .tupleE _ => "tuple"
  | .callE (.nameE id) _ => id
  | .callE _ _ => "unknown"
  | _ => "unknown"

/-- Models `ast.get_docstring`: the leading string-constant expression
statement of a body, if any.  The `inspect.cleandoc` normalization applied
by the standard library is the identity on every docstring occurring in
this development and is modelled as the identity. -/
def getDocstring : List Stmt → Option String
  | .exprStmt (.constE (.strC s)) :: _ => some s
  | _ => none

/-- Translation of `_extract_function_info`.  `isAsyncArg` is the explicit
`is_async` argument of the Python method (defaulting to `False`), and
`nodeAsync` plays the role of `isinstance(node, ast.AsyncFunctionDef)`. -/
def extract_function_info (addr : String) (isAsyncArg nodeAsync : Bool)
    (name : String) (args : List Param) (defaults : List Expr)
    (body : List Stmt) (decorators : List Expr) (returns : Option Expr)
    (lineno : Nat) (endLineno : Option Nat) : FunctionInfo :=
  { name := name
    lineno := lineno
    end_lineno := endLineno
    args := args.map fun p =>
      match p.ann with
      | none => p.name
      | some a => p.name ++ ": " ++ unparse a
    defaults := defaults.map unparse
    return_type := returns.map unparse
    docstring := getDocstring body
    decorators := decorators.map (get_decorator_name addr)
    is_async := isAsyncArg || nodeAsync }

/-! ### The AST walk -/

/-- The mutable state of a `PythonCodeAnalyzer` instance during `visit`
(the source attribute `variables` is named `vars`, as in `CodeStructure`). -/
structure VState where
  classes : List ClassInfo
  functions : List FunctionInfo
  vars : List PyVariable
  imports : List ImportInfo
  currentClass : Option String

/-- The freshly constructed analyzer state. -/
def initVState : VState :=
  { classes := [], functions := [], vars := [], imports := [],
    currentClass := none }

mutual
/-- One step of `ast.NodeVisitor.visit` as specialized by
`PythonCodeAnalyzer`: dispatch on the statement kind, run the matching
`visit_...` method, and perform the `generic_visit` recursion those methods
trigger.  Note that `visit_ClassDef` sets `_current_class` to the class
name, extracts the class info, then resets `_current_class` to `None`
before calling `generic_visit` on the class node, so the class body is
recursively visited with no active class. -/
def visitStmt (addr : String) (st : VState) : Stmt → VState
  | .functionDef nodeAsync name args defaults body decorators returns lineno endLineno =>
      -- visit_FunctionDef / visit_AsyncFunctionDef, then generic_visit
      let st1 :=
        match st.currentClass with
        | none =>
            { st with functions := st.functions ++
                [extract_function_info addr nodeAsync nodeAsync name args
                  defaults body decorators returns lineno endLineno] }
        | some _ => st
      visitStmts addr st1 body
  | .classDef name bases body decorators lineno endLineno =>
      -- visit_ClassDef
      let stSet := { st with currentClass := some name }
      let baseNames := bases.filterMap fun b =>
        match b with
        | .nameE id => some id
        | .attrE v a => some (get_attr_name (.attrE v a))
        | _ => none
      let methods := body.filterMap fun item =>
        match item with
        | .functionDef nAsync n a d b dec r ln eln =>
            some (extract_function_info addr false nAsync n a d b dec r ln eln)
        | _ => none
      let attrs := body.foldl
        (fun acc item =>
          match item with
          | .assign targets _ _ => acc ++ targets.filterMap fun t =>
              match t with
              | .nameE id => some id
              | _ => none
          | _ => acc) []
      let info : ClassInfo :=
        { name := name
          lineno := lineno
          end_lineno := endLineno
          bases := baseNames
          methods := methods
          attributes := attrs
          docstring := getDocstring body
          decorators := decorators.map (get_decorator_name addr) }
      let st1 := { stSet with classes := stSet.classes ++ [info],
                              currentClass := none }
      visitStmts addr st1 body
  | .assign targets value lineno =>
      -- visit_Assign (an assignment has no statement children)
      match st.currentClass with
      | none =>
          { st with vars := st.vars ++ targets.filterMap fun t =>
              match t with
              | .nameE id =>
                  some { name := id, lineno := lineno,
                         value_type := get_value_type value }
              | _ => none }
      | some _ => st
  | .importS aliases lineno =>
      -- visit_Import
      { st with imports := st.imports ++ aliases.map fun a =>
          { module := a.name, names := [a.name], asname := a.asname,
            lineno := lineno, is_from := false } }
  | .importFrom mod aliases lineno =>
      -- visit_ImportFrom
      { st with imports := st.imports ++
          [{ module := mod.getD "", names := aliases.map (·.name),
             asname := none, lineno := lineno, is_from := true }] }
  | .exprStmt _ => st
  | .returnS _ => st
  | .passS => st

/-- Visiting a statement list in order, as `generic_visit` does for a body
field. -/
def visitStmts (addr : String) (st : VState) : List Stmt → VState
  | [] => st
  | s :: rest => visitStmts addr (visitStmt addr st s) rest
end

/-- Rendering of the parse diagnostic appended by `analyze`. -/
def synErrMsg (lineno : Nat) (msg : String) : String :=
  "Syntax error at line " ++ toString lineno ++ ": " ++ msg

/-- Translation of `PythonCodeAnalyzer.analyze`.  The call to `ast.parse`
is modelled as the given parse result: on failure the caught diagnostic is
recorded and the untouched empty lists are returned, on success the module
body is visited starting from the fresh analyzer state. -/
def analyze (addr : String) (parsed : Except SynErr (List Stmt)) : CodeStructure :=
  match parsed with
  | .error e =>
      { classes := [], functions := [], vars := [], imports := [],
        errors := [synErrMsg e.lineno e.msg] }
  | .ok body =>
      let st := visitStmts addr initVState body
      { classes := st.classes, functions := st.functions,
        vars := st.vars, imports := st.imports, errors := [] }

/-! ### Python string primitives

The standard library string functions the service relies on
(`str.split("\n")`, `str.strip()`, `str.startswith`, `str.lower`) are
modelled directly over the character list of the string, mirroring the
Python semantics; the built-in `String.splitOn`/`trim`/... are avoided only
because their byte-position recursions do not reduce inside the kernel. -/

/-- The accumulator loop behind `pySplitLines`. -/
def splitLinesAux : List Char → List Char → List String
  | [], acc => [String.mk acc.reverse]
  | c :: cs, acc =>
      if c = '\n' then String.mk acc.reverse :: splitLinesAux cs []
      else splitLinesAux cs (c :: acc)

/-- Models `source_code.split("\n")`: the (always non-empty) list of
newline-separated segments, keeping empty segments. -/
def pySplitLines (s : String) : List String :=
  splitLinesAux s.toList []

/-- Drops leading whitespace characters from a character list. -/
def dropLeadingWS : List Char → List Char
  | [] => []
  | c :: cs => if c.isWhitespace then dropLeadingWS cs else c :: cs

/-- Models `str.strip()`: remove leading and trailing whitespace (the
whitespace set is modelled as the ASCII space/tab/CR/LF characters). -/
def pyStrip (s : String) : String :=
  String.mk (dropLeadingWS (dropLeadingWS s.toList.reverse).reverse)

/-- Models `str.startswith(pre)`. -/
def pyStartsWith (s pre : String) : Bool :=
  List.isPrefixOf pre.toList s.toList

/-- Models `str.lower()` on the ASCII names handled here. -/
def pyToLower (s : String) : String :=
  String.mk (s.toList.map Char.toLower)

/-! ### The metrics calculator -/

/-- Translation of the metrics dict built by `_calculate_metrics`.  All
values are Python integers, modelled as `Int`. -/
structure Metrics where
  total_lines : Int
  code_lines : Int
  comment_lines : Int
  blank_lines : Int
  classes_count : Int
  functions_count : Int
  imports_count : Int
deriving DecidableEq

/-- Translation of `_calculate_metrics`.  The Python truthiness test
`l.strip()` becomes `pyStrip l != ""`, and `l.strip().startswith("#")`
becomes `pyStartsWith (pyStrip l) "#"`. -/
def calculate_metrics (source_code : String) (structMember : CodeStructure) : Metrics :=
  let lines := pySplitLines source_code
  let non_empty_lines := lines.filter fun l => pyStrip l != ""
  let comment_lines := lines.filter fun l => pyStartsWith (pyStrip l) "#"
  { total_lines := (lines.length : Int)
    code_lines := (non_empty_lines.length : Int) - (comment_lines.length : Int)
    comment_lines := (comment_lines.length : Int)
    blank_lines := (lines.length : Int) - (non_empty_lines.length : Int)
    classes_count := (structMember.classes.length : Int)
    functions_count := (structMember.functions.length : Int)
    imports_count := (structMember.imports.length : Int) }

/-! ### Single-file analysis and the repository scanner

The filesystem boundary is modelled explicitly: a repository is a flat list
of files (the hidden-directory pruning and path joining of `os.walk` are
abstracted away; `name` plays the role of the path), each carrying the
outcome of reading-and-decoding it, and a successfully read file carries
both its text and the oracle result of `ast.parse` on that text. -/

/-- A successfully read source file: its text and its parse result. -/
structure PySource where
  src : String
  parsed : Except SynErr (List Stmt)

/-- A file met during the walk: its (relative) path and the outcome of
`open(...).read()`, where `.error msg` models the caught exception text. -/
structure RepoFile where
  name : String
  read : Except String PySource

/-- The successful result shape of `analyze_python_code`: the status
string, the structure, the error list and the metrics. -/
structure PyAnalysis where
  status : String
  structMember : CodeStructure
  errors : List String
  metrics : Metrics

/-- Translation of `analyze_python_code`: run the analyzer, then report
status "success" when there are no errors and "partial" otherwise. -/
def analyze_python_code (addr : String) (src : String)
    (parsed : Except SynErr (List Stmt)) : PyAnalysis :=
  let s := analyze addr parsed
  { status := if s.errors.isEmpty then "success" else "partial"
    structMember := s
    errors := s.errors
    metrics := calculate_metrics src s }

/-- Translation of `analyze_python_file`: a read failure is caught and
returned as the error dict with keys "status" and "message" (modelled by
`Except.error message`); otherwise the text is analyzed. -/
def analyze_python_file (addr : String) (f : RepoFile) : Except String PyAnalysis :=
  match f.read with
  | .error e => .error e
  | .ok ps => .ok (analyze_python_code addr ps.src ps.parsed)

/-- Translation of the `LANGUAGE_EXTENSIONS` table. -/
def LANGUAGE_EXTENSIONS : List (String × String) :=
  [(".py", "python"), (".js", "javascript"), (".ts", "typescript"),
   (".jsx", "javascript"), (".tsx", "typescript"), (".java", "java"),
   (".go", "go"), (".rs", "rust"), (".cpp", "cpp"), (".c", "c"),
   (".rb", "ruby"), (".php", "php")]

/-- The loop of `str.rfind`: the index of the last occurrence of `c` seen
so far, starting from accumulator `-1`. -/
def rfindAux (cs : List Char) (c : Char) (i : Int) (acc : Int) : Int :=
  match cs with
  | [] => acc
  | x :: xs => rfindAux xs c (i + 1) (if x = c then i else acc)

/-- Models `str.rfind(c)`: the index of the last occurrence of `c`, or
`-1` when `c` does not occur. -/
def pyRFind (s : String) (c : Char) : Int :=
  rfindAux s.toList c 0 (-1)

/-- Models `os.path.splitext(p)[1]` (the posix variant): the extension is
the suffix from the last dot, provided that dot lies after the last path
separator and that some character of the basename before it is not a dot
(so names consisting only of leading dots have no extension). -/
def splitextExt (p : String) : String :=
  let cs := p.toList
  let sepIndex := pyRFind p '/'
  let dotIndex := pyRFind p '.'
  if sepIndex < dotIndex then
    let basenameBeforeDot :=
      (cs.drop (sepIndex + 1).toNat).take (dotIndex - sepIndex - 1).toNat
    if basenameBeforeDot.any (fun ch => ch != '.') then
      String.mk (cs.drop dotIndex.toNat)
    else ""
  else ""

/-- Translation of `detect_language`: look the lower-cased extension up in
the fixed table; unknown extensions give `none`. -/
def detect_language (file_path : String) : Option String :=
  let ext := pyToLower (splitextExt file_path)
  List.lookup ext LANGUAGE_EXTENSIONS

/-- A per-file entry of the repository scan results. -/
structure FileResult where
  path : String
  language : String
  structMember : CodeStructure
  metrics : Metrics
  errors : List String

/-- The running summary of a repository scan. -/
structure RepoSummary where
  total_files : Int
  total_lines : Int
  total_classes : Int
  total_functions : Int
  languages : List (String × Nat)

/-- The result shape of `analyze_repository`. -/
structure RepoResults where
  files : List FileResult
  summary : RepoSummary

/-- The initial `results` dict of `analyze_repository`. -/
def emptyRepoResults : RepoResults :=
  { files := []
    summary := { total_files := 0, total_lines := 0, total_classes := 0,
                 total_functions := 0, languages := [] } }

/-- Models the per-language counter update: insert the language with count
zero when absent, then increment it. -/
def updateLangCount (langs : List (String × Nat)) (lang : String) : List (String × Nat) :=
  match List.lookup lang langs with
  | none => langs ++ [(lang, 1)]
  | some _ => langs.map fun p => if p.1 == lang then (p.1, p.2 + 1) else p

/-- The body of the file loop of `analyze_repository`: skip the file when
its extension (compared case-sensitively) is not in the active set; when it
is, detect the language, only handle `"python"`, analyze the file, and only
append a result entry and update the summary when the resulting status is
"success" or "partial" (so a read failure, whose status is "error", leaves
the accumulator untouched). -/
def processFile (addr : String) (extensions : List String)
    (acc : RepoResults) (f : RepoFile) : RepoResults :=
  let ext := splitextExt f.name
  if extensions.contains ext then
    let language := detect_language f.name
    if language == some "python" then
      match analyze_python_file addr f with
      | .error _ => acc
      | .ok a =>
          if a.status == "success" || a.status == "partial" then
            { files := acc.files ++
                [{ path := f.name, language := "python",
                   structMember := a.structMember, metrics := a.metrics,
                   errors := a.errors }]
              summary :=
                { total_files := acc.summary.total_files + 1
                  total_lines := acc.summary.total_lines + a.metrics.total_lines
                  total_classes := acc.summary.total_classes + a.metrics.classes_count
                  total_functions := acc.summary.total_functions + a.metrics.functions_count
                  languages := updateLangCount acc.summary.languages "python" } }
          else acc
    else acc
  else acc

/-- Translation of `analyze_repository` over the flat file list: resolve
the default extension set, then fold the per-file loop over the files. -/
def analyze_repository (addr : String) (files : List RepoFile)
    (extensions : Option (List String)) : RepoResults :=
  let exts := extensions.getD [".py"]
  files.foldl (processFile addr exts) emptyRepoResults

/-! ### The context extractor -/

/-- The context dict returned by `get_code_context` on success. -/
structure ContextResult where
  start_line : Nat
  end_line : Nat
  before : String
  target : String
  after : String
  full_context : String
deriving DecidableEq

/-- A Python list slice `l[a:b]` for the non-negative bounds arising in
`get_code_context`: drop the first `a` elements, then keep `b - a`.  Both
ends clamp at the list length, exactly as Python slicing does. -/
def pySlice (l : List String) (a b : Nat) : List String :=
  (l.drop a).take (b - a)

/-- Translation of the successful branch of `get_code_context`, operating
on the list of lines delivered by `readlines()`.  The expression
`end_line or start_line` of the source treats both `None` and `0` as
missing; `start_line - context_lines - 1` is computed in `Nat`, whose
truncating subtraction is exactly the `max(0, ...)` of the source. -/
def get_code_context (lines : List String) (start_line : Nat)
    (end_line : Option Nat) (context_lines : Nat) : ContextResult :=
  let e := match end_line with
    | none => start_line
    | some v => if v = 0 then start_line else v
  let context_start := start_line - context_lines - 1
  let context_end := min lines.length (e + context_lines)
  { start_line := start_line
    end_line := e
    before := String.join (pySlice lines context_start (start_line - 1))
    target := String.join (pySlice lines (start_line - 1) e)
    after := String.join (pySlice lines e context_end)
    full_context := String.join (pySlice lines context_start context_end) }

/-- Translation of the enclosing try/except of `get_code_context`: a file
read failure becomes the error dict, a successful read is processed by the
slicing core. -/
def get_code_context_wrapped (fileRead : Except String (List String))
    (start_line : Nat) (end_line : Option Nat) (context_lines : Nat) :
    Except String ContextResult :=
  match fileRead with
  | .error e => .error e
  | .ok lines => .ok (get_code_context lines start_line end_line context_lines)

/-! ### Spec-side definitions

These definitions are read from the wording of the specification and of the
claims (not from the source); the theorems below compare the translated
source against them. -/

/-- The 0-indexed half-open slice `[a, b)` of a line list, read directly
from the claim wording: keep the elements whose index is below `b`, then
drop those whose index is below `a`.  A lower bound of `max(0, x)` is the
truncating `Nat` subtraction `x`. -/
def claimSlice (l : List String) (a b : Nat) : List String :=
  (l.take b).drop a

/-- The dotted path of an expression as the spec words it: a bare name is
its own path, and a dotted attribute extends the path of its value with a
dot and the attribute; other expression shapes have no dotted path. -/
def specDottedPath : Expr → Option String
  | .nameE id => some id
  | .attrE v a => (specDottedPath v).map fun p => p ++ "." ++ a
  | _ => none

/-- The value-kind tag as the claim words it: a literal constant tags by
its runtime type name, the four container literals tag by their own kind,
a call of a bare name tags by that name, and anything else tags
"unknown". -/
def specValueKind : Expr → String
  | .constE c => pyConstTypeName c
  | .listE _ => "list"
  | .dictE _ => "dict"
  | .setE _ => "set"
  | .tupleE _ => "tuple"
  | .callE f _ =>
      match f with
      | .nameE id => id
      | _ => "unknown"
  | _ => "unknown"

mutual
/-- Spec-side variable collection for the amended claim C7: the bare-name
targets of every simple assignment anywhere in the statement tree, in visit
order, tagged by the structural value-kind rule. -/
def specVarsOfStmt : Stmt → List PyVariable
  | .assign targets value lineno => targets.filterMap fun t =>
      match t with
      | .nameE id =>
          some { name := id, lineno := lineno,
                 value_type := specValueKind value }
      | _ => none
  | .functionDef _ _ _ _ body _ _ _ _ => specVarsOfStmts body
  | .classDef _ _ body _ _ _ => specVarsOfStmts body
  | _ => []

/-- Spec-side variable collection over a statement list. -/
def specVarsOfStmts : List Stmt → List PyVariable
  | [] => []
  | s :: rest => specVarsOfStmt s ++ specVarsOfStmts rest
end

/-! ### Helper lemmas -/

/-- The claim-side slice and the translated Python slice agree. -/
theorem claimSlice_eq_pySlice (l : List String) (a b : Nat) :
    claimSlice l a b = pySlice l a b :=
  List.drop_take b a l

/-- Appending a final component to a non-empty dot-join adds one dot. -/
theorem joinDot_append (xs : List String) (a : String) (h : xs ≠ []) :
    joinDot (xs ++ [a]) = joinDot xs ++ "." ++ a := by
  induction xs with
  | nil => exact absurd rfl h
  | cons x xs ih =>
      cases xs with
      | nil => simp [joinDot]
      | cons y ys =>
          have ih2 := ih (by simp)
          simp only [List.cons_append, List.append_eq, joinDot] at ih2 ⊢
          rw [ih2]
          simp [String.append_assoc]

/-- The translated value-kind tagger agrees with the spec-side one. -/
theorem get_value_type_eq_spec (e : Expr) : get_value_type e = specValueKind e := by
  cases e with
  | callE f args => cases f <;> rfl
  | _ => rfl

/-- When an expression has a dotted path in the spec sense, the translated
right-to-left chain walk `_get_attr_name` produces exactly that path. -/
theorem get_attr_name_dotted : ∀ (e : Expr) (p : String),
    specDottedPath e = some p → get_attr_name e = p
  | .nameE id, p, h => by
      simp only [specDottedPath, Option.some.injEq] at h
      simp [get_attr_name, attrParts, joinDot, h]
  | .attrE v a, p, h => by
      simp only [specDottedPath, Option.map_eq_some'] at h
      obtain ⟨q, hq, hp⟩ := h
      have ih := get_attr_name_dotted v q hq
      have hne : attrParts v ≠ [] := by
        cases v <;> simp_all [specDottedPath, attrParts]
      simp only [get_attr_name, attrParts] at ih ⊢
      rw [List.reverse_cons, joinDot_append _ _ (by simpa using hne), ih, hp]
  | .constE _, p, h => by simp [specDottedPath] at h
  | .callE _ _, p, h => by simp [specDottedPath] at h
  | .listE _, p, h => by simp [specDottedPath] at h
  | .dictE _, p, h => by simp [specDottedPath] at h
  | .setE _, p, h => by simp [specDottedPath] at h
  | .tupleE _, p, h => by simp [specDottedPath] at h
  | .binopE _ _, p, h => by simp [specDottedPath] at h

mutual
/-- While no class is being visited, one visit step appends exactly the
spec-side variable collection of the statement and leaves the class marker
unset. -/
theorem visitStmt_vars (addr : String) (s : Stmt) (st : VState)
    (h : st.currentClass = none) :
    (visitStmt addr st s).vars = st.vars ++ specVarsOfStmt s ∧
    (visitStmt addr st s).currentClass = none := by
  obtain ⟨cls, fns, vrs, imps, cc⟩ := st
  simp only [VState.currentClass] at h
  subst h
  cases s with
  | functionDef nodeAsync name args defaults body decorators returns lineno endLineno =>
      simp only [visitStmt, specVarsOfStmt]
      exact visitStmts_vars addr body _ rfl
  | classDef name bases body decorators lineno endLineno =>
      simp only [visitStmt, specVarsOfStmt]
      exact visitStmts_vars addr body _ rfl
  | assign targets value lineno =>
      simp only [visitStmt, specVarsOfStmt]
      exact ⟨by simp [get_value_type_eq_spec], trivial⟩
  | importS aliases lineno =>
      simp only [visitStmt, specVarsOfStmt]
      exact ⟨by simp, trivial⟩
  | importFrom mod aliases lineno =>
      simp only [visitStmt, specVarsOfStmt]
      exact ⟨by simp, trivial⟩
  | exprStmt v =>
      simp only [visitStmt, specVarsOfStmt]
      exact ⟨by simp, trivial⟩
  | returnS v =>
      simp only [visitStmt, specVarsOfStmt]
      exact ⟨by simp, trivial⟩
  | passS =>
      simp only [visitStmt, specVarsOfStmt]
      exact ⟨by simp, trivial⟩

/-- While no class is being visited, visiting a statement list appends
exactly the spec-side variable collection of the list and leaves the class
marker unset. -/
theorem visitStmts_vars (addr : String) (l : List Stmt) (st : VState)
    (h : st.currentClass = none) :
    (visitStmts addr st l).vars = st.vars ++ specVarsOfStmts l ∧
    (visitStmts addr st l).currentClass = none := by
  cases l with
  | nil => simpa [visitStmts, specVarsOfStmts] using h
  | cons s rest =>
      rw [visitStmts]
      obtain ⟨h1, h2⟩ := visitStmt_vars addr s st h
      obtain ⟨h3, h4⟩ := visitStmts_vars addr rest (visitStmt addr st s) h2
      refine ⟨?_, h4⟩
      rw [h3, h1, List.append_assoc]
      rfl
end

/-- A file whose extension is not in the active set (compared
case-sensitively) leaves the scan accumulator untouched. -/
theorem processFile_extMismatch (addr : String) (exts : List String)
    (acc : RepoResults) (f : RepoFile)
    (h : exts.contains (splitextExt f.name) = false) :
    processFile addr exts acc f = acc := by
  simp only [processFile]
  rw [h]
  simp

/-- A file whose read fails leaves the scan accumulator untouched. -/
theorem processFile_readError (addr : String) (exts : List String)
    (acc : RepoResults) (f : RepoFile) (msg : String)
    (h : f.read = .error msg) :
    processFile addr exts acc f = acc := by
  simp [processFile, analyze_python_file, h, ite_self]

/-! ### Concrete inputs used by the claims -/

/-- The parsed module of the source text
`class C:\n    def m(self):\n        pass\n`. -/
def c1Module : List Stmt :=
  [ .classDef "C" []
      [ .functionDef false "m" [⟨"self", none⟩] [] [.passS] [] none 2 (some 3) ]
      [] 1 (some 3) ]

/-- The `FunctionInfo` extracted for the method `m` of `c1Module`. -/
def c1Method : FunctionInfo :=
  { name := "m", lineno := 2, end_lineno := some 3, args := ["self"],
    defaults := [], return_type := none, docstring := none,
    decorators := [], is_async := false }

/-- The parsed module of the Scenario A source text
`def add(a: int, b: int = 0) -> int:\n    "Add two numbers." docstring\n    return a + b\n`. -/
def c4Module : List Stmt :=
  [ .functionDef false "add"
      [⟨"a", some (.nameE "int")⟩, ⟨"b", some (.nameE "int")⟩]
      [.constE (.intC 0)]
      [ .exprStmt (.constE (.strC "Add two numbers.")),
        .returnS (some (.binopE (.nameE "a") (.nameE "b"))) ]
      [] (some (.nameE "int")) 1 (some 3) ]

/-- A repository file whose read/decode fails. -/
def c6File : RepoFile :=
  { name := "a.py", read := .error "UnicodeDecodeError: invalid start byte" }

/-- The parsed module of a source text with an assignment inside a function
body and an assignment inside a class body:
`def f():\n    x = 1\nclass C:\n    y = "s"\n`. -/
def c7Module : List Stmt :=
  [ .functionDef false "f" [] []
      [ .assign [.nameE "x"] (.constE (.intC 1)) 2 ] [] none 1 (some 2),
    .classDef "C" []
      [ .assign [.nameE "y"] (.constE (.strC "s")) 4 ] [] 3 (some 4) ]

/-- The parsed module of a function decorated with the non-name expression
`@a + b` (a legal decorator since Python 3.9). -/
def c8Module : List Stmt :=
  [ .functionDef false "f" [] [] [.passS]
      [.binopE (.nameE "a") (.nameE "b")] none 1 (some 2) ]

/-- A repository file whose name matches the supported language table only
up to letter case of the extension. -/
def c10File : RepoFile :=
  { name := "X.PY", read := .ok { src := "", parsed := .ok [] } }

/-- A 20-line file, as delivered by `readlines()` (each line keeps its
trailing newline). -/
def lines20 : List String :=
  ["l01\n", "l02\n", "l03\n", "l04\n", "l05\n", "l06\n", "l07\n", "l08\n",
   "l09\n", "l10\n", "l11\n", "l12\n", "l13\n", "l14\n", "l15\n", "l16\n",
   "l17\n", "l18\n", "l19\n", "l20\n"]

/-! ### The claims -/

/-- C1.  The claim states that a function defined directly in a class body
is routed only to the method list of that class and never to the
module-level function list.  The code violates this (and its own test
`test_analyze_python_code`, which asserts one module-level function for an
input with a class): `visit_ClassDef` resets `_current_class` to `None`
before calling `generic_visit`, so the class body is revisited with no
active class and each method is appended to the module-level list as well.
This theorem evaluates the translated code on the failing input: the
method `m` appears both as the single method of class `C` and as a
module-level function. -/
theorem c1_method_also_in_module_functions (addr : String) :
    (analyze addr (.ok c1Module)).classes =
      [{ name := "C", lineno := 1, end_lineno := some 3, bases := [],
         methods := [c1Method], attributes := [], docstring := none,
         decorators := [] }] ∧
    (analyze addr (.ok c1Module)).functions = [c1Method] ∧
    ([c1Method] : List FunctionInfo) ≠ [] :=
  ⟨rfl, rfl, by simp⟩

/-- C2.  A parse failure raises no exception: `analyze` returns a
`CodeStructure` whose classes, functions, variables and imports are all
empty and whose error list holds exactly the one diagnostic
`"Syntax error at line <N>: <message>"`. -/
theorem c2_parse_failure_single_diagnostic (addr : String) (err : SynErr) :
    analyze addr (.error err) =
      { classes := [], functions := [], vars := [], imports := [],
        errors := ["Syntax error at line " ++ toString err.lineno ++ ": " ++ err.msg] } :=
  rfl

/-- C3.  For every source text the metrics satisfy
`total_lines = blank_lines + code_lines + comment_lines`, where
`total_lines` counts the newline-split segments, `blank_lines` the lines
whose trimmed content is empty, `comment_lines` the lines whose trimmed
content starts with "#", and `code_lines` is the non-empty count minus the
comment count. -/
theorem c3_metrics_line_partition (src : String) (s : CodeStructure) :
    (calculate_metrics src s).total_lines =
      (calculate_metrics src s).blank_lines + (calculate_metrics src s).code_lines +
        (calculate_metrics src s).comment_lines ∧
    (calculate_metrics src s).total_lines = ((pySplitLines src).length : Int) ∧
    (calculate_metrics src s).blank_lines =
      (((pySplitLines src).filter fun l => pyStrip l == "").length : Int) ∧
    (calculate_metrics src s).comment_lines =
      (((pySplitLines src).filter fun l => pyStartsWith (pyStrip l) "#").length : Int) ∧
    (calculate_metrics src s).code_lines =
      (((pySplitLines src).filter fun l => pyStrip l != "").length : Int) -
        (calculate_metrics src s).comment_lines := by
  have hpart := List.length_eq_length_filter_add
    (l := pySplitLines src) (fun l => pyStrip l != "")
  have hcompl : ((pySplitLines src).filter (! (fun l => pyStrip l != "") ·)) =
      ((pySplitLines src).filter fun l => pyStrip l == "") := by
    apply List.filter_congr
    intro l _
    simp [bne]
  rw [hcompl] at hpart
  refine ⟨?_, rfl, ?_, rfl, rfl⟩
  · simp only [calculate_metrics]
    omega
  · simp only [calculate_metrics]
    omega

/-- C4.  Analyzing the Scenario A input yields exactly one function, named
"add", with parameters `["a: int", "b: int"]`, defaults `["0"]`, return
type "int", docstring "Add two numbers.", no decorators, and not
asynchronous. -/
theorem c4_scenario_a_add_function (addr : String) :
    (analyze addr (.ok c4Module)).functions =
      [{ name := "add", lineno := 1, end_lineno := some 3,
         args := ["a: int", "b: int"], defaults := ["0"],
         return_type := some "int", docstring := some "Add two numbers.",
         decorators := [], is_async := false }] ∧
    (analyze addr (.ok c4Module)).classes = [] :=
  ⟨rfl, rfl⟩

/-- C5.  For every file and every call with a 1-indexed start line (and a
1-indexed end line when one is given, `end_line` defaulting to
`start_line`), `before` is the 0-indexed half-open slice
`[max(0, start_line - context_lines - 1), start_line - 1)` of the lines
(the `max(0, _)` is the truncating `Nat` subtraction), `target` is
`[start_line - 1, end_line)` and `after` is
`[end_line, min(L, end_line + context_lines))`; no index is ever
negative. -/
theorem c5_context_slices (lines : List String)
    (start_line context_lines : Nat) (end_line : Option Nat)
    (hs : 1 ≤ start_line) (he : ∀ v, end_line = some v → 1 ≤ v) :
    (get_code_context lines start_line end_line context_lines).before =
      String.join (claimSlice lines (start_line - context_lines - 1) (start_line - 1)) ∧
    (get_code_context lines start_line end_line context_lines).target =
      String.join (claimSlice lines (start_line - 1) (end_line.getD start_line)) ∧
    (get_code_context lines start_line end_line context_lines).after =
      String.join (claimSlice lines (end_line.getD start_line)
        (min lines.length (end_line.getD start_line + context_lines))) := by
  cases end_line with
  | none => exact ⟨by simp [get_code_context, claimSlice_eq_pySlice],
      by simp [get_code_context, claimSlice_eq_pySlice],
      by simp [get_code_context, claimSlice_eq_pySlice]⟩
  | some v =>
      have hv : ¬v = 0 := by
        have := he v rfl
        omega
      exact ⟨by simp [get_code_context, claimSlice_eq_pySlice, hv],
        by simp [get_code_context, claimSlice_eq_pySlice, hv],
        by simp [get_code_context, claimSlice_eq_pySlice, hv]⟩

/-- Witness for C5: Scenario F, `start_line = 10`, `context_lines = 5` on a
20-line file gives `before` = lines 5 to 9, `target` = line 10 and `after`
= lines 11 to 15. -/
theorem c5_context_slices_witness :
    (get_code_context lines20 10 none 5).before = "l05\nl06\nl07\nl08\nl09\n" ∧
    (get_code_context lines20 10 none 5).target = "l10\n" ∧
    (get_code_context lines20 10 none 5).after = "l11\nl12\nl13\nl14\nl15\n" ∧
    (get_code_context lines20 10 none 5).before = String.join (claimSlice lines20 4 9) :=
  ⟨rfl, rfl, rfl,
    (c5_context_slices lines20 10 5 none (by decide) (fun v h => nomatch h)).1⟩

/-- Counterexample for C6.  The claim states that a matching supported file
whose read or decode fails is reported as a per-file error entry in the
scan results.  On the translated code, scanning a repository holding one
matching `.py` file whose read fails produces NO file entry at all (and no
summary contribution): the failing file is silently dropped because
`analyze_repository` only keeps results whose status is "success" or
"partial". -/
theorem c6_failed_file_has_no_entry :
    (analyze_repository "0x0" [c6File] (some [".py"])).files = [] ∧
    (analyze_repository "0x0" [c6File] (some [".py"])).summary.total_files = 0 :=
  ⟨rfl, rfl⟩

/-- C6 as amended.  A read or decode failure does not abort the scan, but
the failing file gets no per-file entry: it is silently omitted, leaving
the scan result exactly as if the file were absent. -/
theorem c6_read_failure_silently_skipped (addr : String) (f : RepoFile)
    (fs1 fs2 : List RepoFile) (exts : Option (List String)) (msg : String)
    (h : f.read = .error msg) :
    analyze_repository addr (fs1 ++ f :: fs2) exts =
      analyze_repository addr (fs1 ++ fs2) exts := by
  simp only [analyze_repository, List.foldl_append, List.foldl_cons]
  rw [processFile_readError addr _ _ f msg h]

/-- Witness for the amended C6: a failing file between two other files is
skipped, with the surrounding files still processed. -/
theorem c6_read_failure_silently_skipped_witness :
    c6File.read = .error "UnicodeDecodeError: invalid start byte" ∧
    analyze_repository "0x0" [c10File, c6File, c10File] (some [".py"]) =
      analyze_repository "0x0" [c10File, c10File] (some [".py"]) :=
  ⟨rfl, c6_read_failure_silently_skipped "0x0" c6File [c10File] [c10File]
    (some [".py"]) "UnicodeDecodeError: invalid start byte" rfl⟩

/-- Counterexample for C7.  The claim states that an assignment inside a
class body or inside a function body never produces a variables entry.  On
the translated code, a module whose only assignments sit inside a function
body (`x = 1`) and inside a class body (`y = "s"`) yields both as
variables entries: `visit_FunctionDef` recurses into the function body via
`generic_visit`, and `visit_ClassDef` clears `_current_class` before
recursing into the class body. -/
theorem c7_nested_assigns_are_recorded :
    (analyze "0x0" (.ok c7Module)).vars =
      [{ name := "x", lineno := 2, value_type := "int" },
       { name := "y", lineno := 4, value_type := "str" }] :=
  rfl

/-- C7 as amended.  The variables list contains every simple assignment to
a bare name anywhere in the module, in visit order — including assignments
inside function bodies and class bodies, because the visitor recurses into
bodies with no active class — and each entry is tagged by the structural
value-kind rule: literal constants by their runtime type name,
list/dict/set/tuple literals as such, calls of a bare name by that name,
anything else "unknown". -/
theorem c7_vars_collect_all_bare_assigns (addr : String) (body : List Stmt) :
    (analyze addr (.ok body)).vars = specVarsOfStmts body := by
  have h := (visitStmts_vars addr body initVState rfl).1
  simpa [analyze, initVState] using h

/-- Counterexample for C8.  The claim states that a decorator expression
that is not a name, attribute or call resolves to its raw textual source
form.  On the translated code, the decorator `a + b` resolves to the
default object string `<ast.BinOp object at ...>` (here with address
`0x0`), not to the source text `a + b` produced by `ast.unparse`. -/
theorem c8_fallback_is_not_source_text :
    (analyze "0x0" (.ok c8Module)).functions =
      [{ name := "f", lineno := 1, end_lineno := some 2, args := [],
         defaults := [], return_type := none, docstring := none,
         decorators := ["<ast.BinOp object at 0x0>"], is_async := false }] ∧
    unparse (.binopE (.nameE "a") (.nameE "b")) = "a + b" ∧
    ("<ast.BinOp object at 0x0>" : String) ≠ "a + b" :=
  ⟨rfl, rfl, by decide⟩

/-- C8 as amended.  A bare name resolves to itself; a dotted attribute
resolves to its dotted path via the right-to-left chain walk; a call whose
callee is a bare name or dotted attribute resolves to that callee name,
ignoring arguments; any other decorator expression (including a call whose
callee is itself a call) resolves to the default Python object string
`<ast.<Type> object at <address>>`, not to its source text. -/
theorem c8_decorator_name_resolution (addr : String) :
    (∀ id : String, get_decorator_name addr (.nameE id) = id) ∧
    (∀ (v : Expr) (a p : String), specDottedPath (.attrE v a) = some p →
        get_decorator_name addr (.attrE v a) = p) ∧
    (∀ (id : String) (args : List Expr),
        get_decorator_name addr (.callE (.nameE id) args) = id) ∧
    (∀ (v : Expr) (a p : String) (args : List Expr),
        specDottedPath (.attrE v a) = some p →
        get_decorator_name addr (.callE (.attrE v a) args) = p) ∧
    (∀ c : PyConst,
        get_decorator_name addr (.constE c) = pyObjectStr addr (.constE c)) ∧
    (∀ l r : Expr,
        get_decorator_name addr (.binopE l r) = pyObjectStr addr (.binopE l r)) ∧
    (∀ es : List Expr,
        get_decorator_name addr (.listE es) = pyObjectStr addr (.listE es)) ∧
    (∀ (g : Expr) (args1 args2 : List Expr),
        get_decorator_name addr (.callE (.callE g args1) args2) =
          pyObjectStr addr (.callE (.callE g args1) args2)) := by
  refine ⟨fun id => rfl, ?_, fun id args => rfl, ?_,
    fun c => rfl, fun l r => rfl, fun es => rfl, fun g args1 args2 => rfl⟩
  · intro v a p h
    exact get_attr_name_dotted (.attrE v a) p h
  · intro v a p args h
    exact get_attr_name_dotted (.attrE v a) p h

/-- Witness for the amended C8: the dotted decorator `a.b.C` resolves to
the dotted path "a.b.C". -/
theorem c8_decorator_name_resolution_witness :
    get_decorator_name "0x0" (.attrE (.attrE (.nameE "a") "b") "C") = "a.b.C" :=
  (c8_decorator_name_resolution "0x0").2.1 (.attrE (.nameE "a") "b") "C" "a.b.C" rfl

/-- C9.  `detect_language` is a total function of the lower-cased file
extension over the fixed table: "main.py" maps to the Python tag,
"unknown.xyz" maps to no language, and any two file names whose extensions
agree up to case detect the same language. -/
theorem c9_detect_language_pure_table :
    detect_language "main.py" = some "python" ∧
    detect_language "unknown.xyz" = none ∧
    ∀ f1 f2 : String,
      pyToLower (splitextExt f1) = pyToLower (splitextExt f2) →
      detect_language f1 = detect_language f2 := by
  refine ⟨rfl, rfl, fun f1 f2 h => ?_⟩
  simp only [detect_language]
  rw [h]

/-- Witness for C9: "A.PY" and "b.py" have case-equal extensions and
detect the same language. -/
theorem c9_detect_language_pure_table_witness :
    pyToLower (splitextExt "A.PY") = pyToLower (splitextExt "b.py") ∧
    detect_language "A.PY" = detect_language "b.py" :=
  ⟨by decide, c9_detect_language_pure_table.2.2 "A.PY" "b.py" (by decide)⟩

/-- C10.  The repository scanner compares extensions case-sensitively even
though language detection is case-insensitive: a file whose extension is
not literally in the requested set produces no result entry and no summary
contribution — the scan result is exactly as if the file were absent —
even when `detect_language` on the same name returns a supported
language. -/
theorem c10_extension_filter_case_sensitive (addr : String) (f : RepoFile)
    (fs1 fs2 : List RepoFile) (exts : List String) (lang : String)
    (h1 : exts.contains (splitextExt f.name) = false)
    (h2 : detect_language f.name = some lang) :
    analyze_repository addr (fs1 ++ f :: fs2) (some exts) =
      analyze_repository addr (fs1 ++ fs2) (some exts) := by
  simp only [analyze_repository, Option.getD_some, List.foldl_append, List.foldl_cons]
  rw [processFile_extMismatch addr exts _ f h1]

/-- Witness for C10: "X.PY" is skipped by a scan requesting [".py"] even
though `detect_language "X.PY"` is the Python tag. -/
theorem c10_extension_filter_case_sensitive_witness :
    ([".py"] : List String).contains (splitextExt "X.PY") = false ∧
    detect_language "X.PY" = some "python" ∧
    analyze_repository "0x0" [c10File] (some [".py"]) =
      analyze_repository "0x0" [] (some [".py"]) :=
  ⟨by decide, by decide,
    c10_extension_filter_case_sensitive "0x0" c10File [] [] [".py"] "python"
      (by decide) (by decide)⟩

end CodeAnalysis
